import Mathlib

/-!
Verification of the RMV Stainless Steel Fabrication backend workflow core.

The definitions below are a shallow embedding of the JavaScript source:
  - `src/models/Project.js` (pre-save payment-stage hook, soft-delete filter)
  - `src/models/Payment.js` (receipt numbering, unique (project, stage) index,
    soft-delete filter)
  - `src/models/Appointment.js` (soft-delete filter)
  - the appointment controller (createAppointment, cancelAppointment,
    markNoShow) and the payment controller (submitPaymentProof, verifyPayment)
  - the project controller (approveProject)

JavaScript numbers that hold money amounts and percentages are modelled as
`Int`; Mongo ObjectIds as `Nat`; JS `Date` values attached to appointments as
`Int` minutes since the epoch (UTC), and `Date` values attached to payments as
a calendar `DateTime` record compared lexicographically (which agrees with the
millisecond order JS uses for `Date` comparison).  Fallible controller actions
return `Except Err _`; a thrown `AppError` (or an uncaught JS `TypeError`)
aborts the whole HTTP request, so an `Except.error` result carries no state.
-/

namespace RMV

/-- Payment stage, `Payment.stage` enum of `src/models/Payment.js`. -/
inductive Stage
  | initial
  | midpoint
  | final
deriving DecidableEq, Repr

/-- Payment status enum of `src/models/Payment.js`. -/
inductive PayStatus
  | pending
  | submitted
  | verified
  | rejected
deriving DecidableEq, Repr

/-- Appointment status enum of `src/models/Appointment.js`. -/
inductive ApptStatus
  | pending
  | scheduled
  | confirmed
  | inProgress
  | completed
  | cancelled
  | noShow
deriving DecidableEq, Repr

/-- Project status enum of `src/models/Project.js`. -/
inductive ProjStatus
  | draft
  | pendingBlueprint
  | blueprintSubmitted
  | pendingCustomerApproval
  | revisionRequested
  | approved
  | pendingInitialPayment
  | initialPaymentVerified
  | inFabrication
  | pendingMidpointPayment
  | midpointPaymentVerified
  | readyForInstallation
  | inInstallation
  | pendingFinalPayment
  | completed
  | cancelled
  | onHold
deriving DecidableEq, Repr

/-- User roles, `config.roles`. -/
inductive Role
  | customer
  | appointmentAgent
  | salesStaff
  | engineer
  | cashier
  | fabricationStaff
  | admin
deriving DecidableEq, Repr

/-- Appointment type enum of `src/models/Appointment.js`. -/
inductive ApptType
  | officeConsultation
  | ocularVisit
deriving DecidableEq, Repr

/-- Error outcomes of a controller action.  `AppError(msg, 404)` becomes
`notFound`, `AppError(msg, 403)` becomes `forbidden`, an `AppError(msg, 400)`
raised by a state-machine guard becomes `invalidState`, other 400s become
`badRequest`.  `jsTypeError` models an uncaught JS `TypeError` (reading a
property of `undefined`/`null`), and `duplicateKey` a MongoDB unique-index
violation. -/
inductive Err
  | notFound (resource : String)
  | forbidden
  | invalidState (msg : String)
  | badRequest (msg : String)
  | jsTypeError
  | duplicateKey
deriving DecidableEq, Repr

/-- Calendar timestamp for payment records; `month` is 0-based exactly like
the JS `Date` constructor and `getMonth`. -/
structure DateTime where
  year : Int
  month : Int
  day : Int
  hour : Int
  minute : Int
deriving DecidableEq, Repr

/-- `a < b` on JS `Date`s, i.e. on instants; on calendar fields this is the
lexicographic order. -/
def DateTime.ltb (a b : DateTime) : Bool :=
  if a.year ≠ b.year then a.year < b.year
  else if a.month ≠ b.month then a.month < b.month
  else if a.day ≠ b.day then a.day < b.day
  else if a.hour ≠ b.hour then a.hour < b.hour
  else a.minute < b.minute

/-- `a <= b` on JS `Date`s (`$gte` in the Mongo queries below). -/
def DateTime.leb (a b : DateTime) : Bool :=
  a.ltb b || a == b

/-- `new Date(y, 0, 1)`: January 1st of year `y`. -/
def DateTime.yearStart (y : Int) : DateTime :=
  ⟨y, 0, 1, 0, 0⟩

/-- JS `Math.round (p / 100)` for an integer `p`: round half toward
positive infinity, i.e. `⌊p/100 + 1/2⌋`. -/
def jsRound100 (p : Int) : Int :=
  Int.fdiv (p + 50) 100

/-- One entry of a `statusHistory` array (the `changedAt` default timestamp is
not tracked; no claim mentions it). -/
structure StatusEntry (σ : Type) where
  status : σ
  changedBy : Nat
  notes : String
deriving DecidableEq, Repr

-- Business-rule constants from `src/config/index.js` (`config.business`).

/-- `config.business.appointmentHours.start`. -/
def appointmentHoursStart : Int := 9

/-- `config.business.appointmentHours.end`. -/
def appointmentHoursEnd : Int := 18

/-- `config.business.cancellationCutoffHours`. -/
def cancellationCutoffHours : Int := 24

/-- `config.business.paymentStages` default percentages. -/
def defaultPctInitial : Int := 30

/-- `config.business.paymentStages.midpoint`. -/
def defaultPctMidpoint : Int := 40

/-- `config.business.paymentStages.final`. -/
def defaultPctFinal : Int := 30

/-! ## Project data model (`src/models/Project.js`) -/

/-- One element of `costing.versions` (only the fields the workflow core
reads). -/
structure CostingVersion where
  version : Nat
  totalAmount : Int
deriving DecidableEq, Repr

/-- The `costing` sub-record of a project. -/
structure Costing where
  currentVersion : Nat
  versions : List CostingVersion
  approvedAmount : Option Int
deriving DecidableEq, Repr

/-- One payment stage of `paymentStages`: `{ percentage, amount }`; `amount`
is unset (`null`) until derived. -/
structure StageInfo where
  percentage : Int
  amount : Option Int
deriving DecidableEq, Repr

/-- The `paymentStages` sub-record. -/
structure PaymentStages where
  initial : StageInfo
  midpoint : StageInfo
  final : StageInfo
deriving DecidableEq, Repr

/-- `customerApproval.approvedVersion`. -/
structure ApprovedVersion where
  blueprint : Nat
  costing : Nat
deriving DecidableEq, Repr

/-- The `customerApproval` sub-record. -/
structure CustomerApproval where
  isApproved : Bool
  approvedAt : Option DateTime
  approvedVersion : Option ApprovedVersion
deriving DecidableEq, Repr

/-- The `fabrication` sub-record (photos and notes are not tracked). -/
structure Fabrication where
  startedAt : Option DateTime
  completedAt : Option DateTime
  progress : Int
deriving DecidableEq, Repr

/-- A `Project` document restricted to the fields the claims touch. -/
structure Project where
  id : Nat
  customer : Nat
  status : ProjStatus
  blueprintCurrentVersion : Nat
  costing : Costing
  customerApproval : CustomerApproval
  paymentStages : PaymentStages
  fabrication : Fabrication
  statusHistory : List (StatusEntry ProjStatus)
  isDeleted : Bool
deriving DecidableEq, Repr

/-- The second pre-save hook of `projectSchema` (Project.js lines 366-375):
`if (this.costing?.approvedAmount) { ... }` — note that JS truthiness skips
the block when `approvedAmount` is unset *or* zero.  Inside, the initial and
midpoint amounts are `Math.round(total * pct / 100)` and the final amount is
the remainder `total - initial - midpoint`. -/
def calcPaymentStageAmounts (p : Project) : Project :=
  match p.costing.approvedAmount with
  | none => p
  | some total =>
    if total = 0 then p
    else
      let ia := jsRound100 (total * p.paymentStages.initial.percentage)
      let ma := jsRound100 (total * p.paymentStages.midpoint.percentage)
      let fa := total - ia - ma
      { p with paymentStages :=
          { initial := { p.paymentStages.initial with amount := some ia }
            midpoint := { p.paymentStages.midpoint with amount := some ma }
            final := { p.paymentStages.final with amount := some fa } } }

/-- `project.save()`: the project-number hook only fires for new documents and
is not modelled; the payment-stage hook runs on every save. -/
def saveProject (p : Project) : Project :=
  calcPaymentStageAmounts p

/-! ## Payment data model (`src/models/Payment.js`) -/

/-- The rendered receipt-number string `RMV-RCT-YYYYMM-####`, kept
componentwise: `year` is the 4-digit year, `month` the 1-based, 2-padded
month, `seq` the 4-padded sequence counter.  Two receipt numbers render to the
same string exactly when the components coincide. -/
structure ReceiptNumber where
  year : Int
  month : Int
  seq : Nat
deriving DecidableEq, Repr

/-- The `receipt` sub-record, set once at verification. -/
structure Receipt where
  number : ReceiptNumber
  generatedAt : DateTime
deriving DecidableEq, Repr

/-- The `verification` sub-record. -/
structure Verification where
  verifiedBy : Nat
  verifiedAt : DateTime
  notes : String
  referenceNumber : String
deriving DecidableEq, Repr

/-- An uploaded payment-proof file (opaque content reference). -/
structure ProofFile where
  filename : String
deriving DecidableEq, Repr

/-- A `Payment` document restricted to the fields the claims touch.
`createdAt` is the mongoose `timestamps` creation date. -/
structure Payment where
  id : Nat
  project : Nat
  customer : Nat
  stage : Stage
  amountExpected : Option Int
  amountReceived : Option Int
  paymentMethod : Option String
  paymentProof : Option ProofFile
  status : PayStatus
  verification : Option Verification
  receipt : Option Receipt
  statusHistory : List (StatusEntry PayStatus)
  createdAt : DateTime
  isDeleted : Bool
deriving DecidableEq, Repr

/-! ## Query layer

Each schema installs `pre(/^find/)` middleware that adds
`{ isDeleted: { $ne: true } }` unless the query sets the `includeDeleted`
option; `countDocuments` and `aggregate` do not belong to the `find` family,
so no filter is added to them. -/

/-- `Project.findById(id)` honouring the soft-delete `pre(/^find/)` hook of
Project.js lines 378-383. -/
def findProjectOpt (includeDeleted : Bool) (db : List Project) (i : Nat) :
    Option Project :=
  (if includeDeleted then db else db.filter (fun r => !r.isDeleted)).find?
    (fun r => r.id == i)

/-- `Project.findById(id)` as every core call site uses it (no
`includeDeleted` option). -/
def findProject (db : List Project) (i : Nat) : Option Project :=
  findProjectOpt false db i

/-- `Payment.findById(id)` honouring the soft-delete hook of Payment.js
lines 150-155. -/
def findPaymentOpt (includeDeleted : Bool) (db : List Payment) (i : Nat) :
    Option Payment :=
  (if includeDeleted then db else db.filter (fun r => !r.isDeleted)).find?
    (fun r => r.id == i)

/-- `Payment.findById(id)` as the core uses it. -/
def findPayment (db : List Payment) (i : Nat) : Option Payment :=
  findPaymentOpt false db i

/-- Persist an updated payment document (`payment.save()` on an existing
document; the Payment schema has no relevant pre-save hook). -/
def replacePayment (db : List Payment) (p : Payment) : List Payment :=
  db.map (fun q => if q.id = p.id then p else q)

/-- Persist an updated project document; every `project.save()` call below
first applies the pre-save hook via `saveProject`. -/
def replaceProject (db : List Project) (p : Project) : List Project :=
  db.map (fun q => if q.id = p.id then p else q)

/-- The `createdAt` range filter `{ $gte: new Date(year,0,1), $lt: new
Date(year+1,0,1) }` used by `Payment.generateReceiptNumber`. -/
def createdInYear (year : Int) (p : Payment) : Bool :=
  (DateTime.yearStart year).leb p.createdAt
    && p.createdAt.ltb (DateTime.yearStart (year + 1))

/-- The `countDocuments` query inside `Payment.generateReceiptNumber`
(Payment.js lines 139-145): payments that have a `receipt.receiptNumber` and
whose `createdAt` lies inside calendar year `year`.  `countDocuments` is not
a `find`-family query, so the soft-delete filter is NOT applied. -/
def countYearReceipts (db : List Payment) (year : Int) : Nat :=
  db.countP (fun p => p.receipt.isSome && createdInYear year p)

/-- `Payment.generateReceiptNumber()` (Payment.js lines 136-147): the current
year and 1-based month plus a sequence counter `count + 1` where `count` is
`countYearReceipts` for the current year. -/
def generateReceiptNumber (db : List Payment) (now : DateTime) : ReceiptNumber :=
  { year := now.year, month := now.month + 1, seq := countYearReceipts db now.year + 1 }

/-- The persistent state touched by the project/payment controllers. -/
structure LedgerState where
  projects : List Project
  payments : List Payment
deriving DecidableEq, Repr

/-! ## Payment controller (`src/controllers/paymentController.js`) -/

/-- `expectedStatuses[stage]` in `verifyPayment`. -/
def expectedStatusFor : Stage → ProjStatus
  | .initial => .pendingInitialPayment
  | .midpoint => .pendingMidpointPayment
  | .final => .pendingFinalPayment

/-- `stageStatusMap[stage]` in `verifyPayment`. -/
def stageStatusMapFor : Stage → ProjStatus
  | .initial => .initialPaymentVerified
  | .midpoint => .midpointPaymentVerified
  | .final => .completed

/-- `submitPaymentProof` (payment controller lines 766-818): the caller must
own the payment; an already `verified` payment cannot be resubmitted; a file
is required; on success the proof reference and method are stored and the
payment moves to `submitted`. -/
def submitPaymentProof (userId : Nat) (payId : Nat) (paymentMethod : String)
    (file : Option ProofFile) (s : LedgerState) : Except Err LedgerState :=
  match findPayment s.payments payId with
  | none => .error (.notFound "Payment not found")
  | some pay =>
    if pay.customer ≠ userId then .error .forbidden
    else if pay.status = .verified then
      .error (.invalidState "Payment has already been verified")
    else
      match file with
      | none => .error (.badRequest "No file uploaded")
      | some f =>
        let pay1 := { pay with
          paymentProof := some f
          paymentMethod := some paymentMethod
          status := .submitted
          statusHistory := pay.statusHistory
            ++ [⟨.submitted, userId,
                 "Payment proof submitted via " ++ paymentMethod⟩] }
        .ok { s with payments := replacePayment s.payments pay1 }

/-- The `stage` enum value as the source interpolates it into history
notes. -/
def stageName : Stage → String
  | .initial => "initial"
  | .midpoint => "midpoint"
  | .final => "final"

/-- The payment document as `verifyPayment` saves it (lines 840-861):
received amount, `verified` status, verification metadata, one history entry
and the freshly generated receipt. -/
def verifiedPayment (userId : Nat) (amountReceived : Int)
    (referenceNumber : String) (notes : String) (now : DateTime)
    (db : List Payment) (pay : Payment) : Payment :=
  { pay with
    amountReceived := some amountReceived
    status := .verified
    verification := some ⟨userId, now, notes, referenceNumber⟩
    statusHistory := pay.statusHistory
      ++ [⟨.verified, userId,
           "Verified - Amount: " ++ toString amountReceived⟩]
    receipt := some ⟨generateReceiptNumber db now, now⟩ }

/-- The project document as `verifyPayment` saves it when the status matched
`expectedStatuses[stage]` (lines 878-897): first the mapped status with one
history entry; for the `initial` stage the status is then overwritten with
`in_fabrication`, `fabrication.startedAt` is stamped and a second history
entry is pushed. -/
def advancedProject (userId : Nat) (now : DateTime) (stage : Stage)
    (proj : Project) : Project :=
  let proj1 := { proj with
    status := stageStatusMapFor stage
    statusHistory := proj.statusHistory
      ++ [⟨stageStatusMapFor stage, userId,
           stageName stage ++ " payment verified"⟩] }
  if stage = .initial then
    { proj1 with
      status := .inFabrication
      fabrication := { proj1.fabrication with startedAt := some now }
      statusHistory := proj1.statusHistory
        ++ [⟨.inFabrication, userId,
             "Fabrication started after initial payment"⟩] }
  else proj1

/-- `verifyPayment` (payment controller lines 825-925): legal only from
`submitted`; records the received amount and verification metadata, generates
a receipt number, saves the payment, and then advances the owning project
only when its status equals `expectedStatuses[stage]`; for the `initial`
stage the project is pushed straight on to `in_fabrication` and
`fabrication.startedAt` is stamped. -/
def verifyPayment (userId : Nat) (payId : Nat) (amountReceived : Int)
    (referenceNumber : String) (notes : String) (now : DateTime)
    (s : LedgerState) : Except Err LedgerState :=
  match findPayment s.payments payId with
  | none => .error (.notFound "Payment not found")
  | some pay =>
    if pay.status ≠ .submitted then
      .error (.invalidState "Payment is not pending verification")
    else
      let pay1 := verifiedPayment userId amountReceived referenceNumber
        notes now s.payments pay
      let payments1 := replacePayment s.payments pay1
      match findProject s.projects pay.project with
      | none => .error .jsTypeError
      | some proj =>
        if proj.status = expectedStatusFor pay.stage then
          .ok { projects := replaceProject s.projects
                  (saveProject (advancedProject userId now pay.stage proj))
                payments := payments1 }
        else
          .ok { s with payments := payments1 }

/-! ## Project controller (`src/controllers/projectController.js`) -/

/-- `Payment.create(doc)` for one document: the unique compound index on
`(project, stage)` (Payment.js line 121) rejects the insert whenever any
existing document — soft-deleted or not — already carries that key. -/
def insertPayment (db : List Payment) (p : Payment) : Except Err (List Payment) :=
  if db.any (fun q => q.project == p.project && q.stage == p.stage) then
    .error .duplicateKey
  else
    .ok (db ++ [p])

/-- `approveProject` (project controller lines 454-543): caller must be the
project customer and the status must be `pending_customer_approval`.  The
latest costing version's `totalAmount` is snapshotted into
`costing.approvedAmount`, the project is saved as `approved` (which derives
the stage amounts via the pre-save hook), three pending Payment records are
created with `expected` equal to the derived stage amounts, and the project
is saved again as `pending_initial_payment`.  `id1/id2/id3` stand for the
ObjectIds MongoDB mints for the three payment documents; `now` is the wall
clock. -/
def approveProject (userId : Nat) (projId : Nat) (now : DateTime)
    (id1 id2 id3 : Nat) (s : LedgerState) : Except Err LedgerState :=
  match findProject s.projects projId with
  | none => .error (.notFound "Project not found")
  | some proj =>
    if proj.customer ≠ userId then .error .forbidden
    else if proj.status ≠ .pendingCustomerApproval then
      .error (.invalidState "Project is not pending approval")
    else
      match proj.costing.versions.getLast? with
      | none => .error .jsTypeError
      | some latestCosting =>
        let approval : CustomerApproval :=
          { isApproved := true
            approvedAt := some now
            approvedVersion := some ⟨proj.blueprintCurrentVersion,
                                     proj.costing.currentVersion⟩ }
        let proj1 := saveProject { proj with
          customerApproval := approval
          costing := { proj.costing with
            approvedAmount := some latestCosting.totalAmount }
          status := .approved
          statusHistory := proj.statusHistory
            ++ [⟨.approved, userId, "Approved by customer"⟩] }
        let projects1 := replaceProject s.projects proj1
        let mkPay : Nat → Stage → Option Int → Payment := fun i st amt =>
          { id := i, project := proj.id, customer := proj.customer, stage := st,
            amountExpected := amt, amountReceived := none,
            paymentMethod := none, paymentProof := none,
            status := .pending, verification := none, receipt := none,
            statusHistory := [], createdAt := now, isDeleted := false }
        match insertPayment s.payments
                (mkPay id1 .initial proj1.paymentStages.initial.amount) with
        | .error e => .error e
        | .ok pays1 =>
          match insertPayment pays1
                  (mkPay id2 .midpoint proj1.paymentStages.midpoint.amount) with
          | .error e => .error e
          | .ok pays2 =>
            match insertPayment pays2
                    (mkPay id3 .final proj1.paymentStages.final.amount) with
            | .error e => .error e
            | .ok pays3 =>
              let proj2 := saveProject { proj1 with
                status := .pendingInitialPayment
                statusHistory := proj1.statusHistory
                  ++ [⟨.pendingInitialPayment, userId,
                       "Waiting for initial 30% payment"⟩] }
              .ok { projects := replaceProject projects1 proj2
                    payments := pays3 }

/-! ## Appointment data model (`src/models/Appointment.js`, `src/models/User.js`)

Appointment timestamps are minutes since the epoch (UTC); JS
`date.getHours()` on such an instant is `(t div 60) mod 24` (floor division,
as JS `Date` does for UTC). -/

/-- `date.getHours()` for a minutes-since-epoch instant. -/
def hourOfDay (t : Int) : Int :=
  (t.fdiv 60).emod 24

/-- A `User` document restricted to the fields the scheduling engine reads. -/
structure User where
  id : Nat
  role : Role
  isActive : Bool
  isDeleted : Bool
deriving DecidableEq, Repr

/-- The `cancellation` sub-record of an appointment. -/
structure Cancellation where
  cancelledBy : Nat
  cancelledAt : Int
  reason : String
  isWithinPolicy : Bool
deriving DecidableEq, Repr

/-- An `Appointment` document restricted to the fields the claims touch. -/
structure Appointment where
  id : Nat
  customer : Nat
  assignedSalesStaff : Option Nat
  scheduledDate : Int
  appointmentType : ApptType
  status : ApptStatus
  cancellation : Option Cancellation
  statusHistory : List (StatusEntry ApptStatus)
  isDeleted : Bool
deriving DecidableEq, Repr

/-- The persistent state touched by the appointment controller. -/
structure ApptDB where
  users : List User
  appointments : List Appointment
deriving DecidableEq, Repr

/-- `Appointment.findById(id)` honouring the soft-delete hook of
Appointment.js lines 182-187. -/
def findApptOpt (includeDeleted : Bool) (db : List Appointment) (i : Nat) :
    Option Appointment :=
  (if includeDeleted then db else db.filter (fun r => !r.isDeleted)).find?
    (fun r => r.id == i)

/-- `Appointment.findById(id)` as the core uses it. -/
def findAppt (db : List Appointment) (i : Nat) : Option Appointment :=
  findApptOpt false db i

/-- `User.find({role, isActive: true})` honouring the soft-delete hook of
User.js: active sales staff, in collection order (a stable order). -/
def activeSalesStaff (users : List User) : List User :=
  users.filter (fun u => !u.isDeleted && u.role == .salesStaff && u.isActive)

/-- The exact-timestamp conflict lookup of `createAppointment` (appointment
controller lines 43-47): `Appointment.findOne({assignedSalesStaff: staff,
scheduledDate: date, status: {$nin: [cancelled, no_show]}})`, with the
soft-delete filter added by the `pre(/^find/)` hook. -/
def findConflict (db : List Appointment) (staffId : Nat) (t : Int) :
    Option Appointment :=
  (db.filter (fun r => !r.isDeleted)).find? (fun a =>
    a.assignedSalesStaff == some staffId
      && a.scheduledDate == t
      && !(a.status == .cancelled)
      && !(a.status == .noShow))

/-- `appointment.save()` (the pre-save hook only derives `scheduledEndDate`,
which no claim mentions and which is not tracked). -/
def replaceAppt (db : List Appointment) (a : Appointment) : List Appointment :=
  db.map (fun q => if q.id = a.id then a else q)

/-! ## Appointment controller (`src/controllers/appointmentController.js`) -/

/-- `createAppointment` (lines 11-96): rejects a `scheduledDate` whose
hour-of-day is outside business hours; for an `ocular_visit` it scans active
sales staff in collection order and pre-assigns the first member with no
conflicting appointment at the exact timestamp, creating the appointment as
`scheduled`; otherwise (no staff free, or an office consultation) the
appointment is created as `pending` with no staff.  `newId` is the ObjectId
MongoDB mints for the document. -/
def createAppointment (userId : Nat) (newId : Nat) (scheduledDate : Int)
    (appointmentType : ApptType) (db : ApptDB) : Except Err ApptDB :=
  if hourOfDay scheduledDate < appointmentHoursStart
      || hourOfDay scheduledDate ≥ appointmentHoursEnd then
    .error (.badRequest "Appointments must be scheduled between 9:00 and 18:00")
  else
    let autoAssigned : Option User :=
      if appointmentType = .ocularVisit then
        (activeSalesStaff db.users).find? (fun staff =>
          (findConflict db.appointments staff.id scheduledDate).isNone)
      else none
    let newAppt : Appointment :=
      { id := newId
        customer := userId
        assignedSalesStaff := autoAssigned.map User.id
        scheduledDate := scheduledDate
        appointmentType := appointmentType
        status := if autoAssigned.isSome then .scheduled else .pending
        cancellation := none
        statusHistory :=
          [⟨.pending, userId, "Appointment booked by customer"⟩]
            ++ (if autoAssigned.isSome then
                  [⟨.scheduled, userId, "Auto-assigned"⟩]
                else [])
        isDeleted := false }
    .ok { db with appointments := db.appointments ++ [newAppt] }

/-- The fallback applied to the free-text cancellation reason
(`reason?.trim() || default` in the source; trimming of interior whitespace
is not modelled, the empty string falls back like in JS). -/
def cancellationReasonOf (reason : Option String) : String :=
  match reason with
  | some r => if r = "" then "Appointment cancelled" else r
  | none => "Appointment cancelled"

/-- The appointment document as `cancelAppointment` saves it (lines
339-350): `cancelled` status, the cancellation record carrying the
informational `isWithinPolicy` flag, and one history entry. -/
def cancelledAppt (userId : Nat) (reason : Option String) (now : Int)
    (appt : Appointment) : Appointment :=
  { appt with
    status := .cancelled
    cancellation := some
      { cancelledBy := userId
        cancelledAt := now
        reason := cancellationReasonOf reason
        isWithinPolicy :=
          now < appt.scheduledDate - cancellationCutoffHours * 60 }
    statusHistory := appt.statusHistory
      ++ [⟨.cancelled, userId, cancellationReasonOf reason⟩] }

/-- `cancelAppointment` (lines 309-381): 404 when not found, 403 when a
customer cancels someone else's appointment, and an invalid-state error once
the status is `cancelled`, `completed` or `no_show`.  Otherwise the
appointment is cancelled unconditionally; `isWithinPolicy` compares the
current time against `scheduledDate` minus the cancellation cutoff and only
selects the success message (and is recorded on the cancellation record). -/
def cancelAppointment (userId : Nat) (userRole : Role) (apptId : Nat)
    (reason : Option String) (now : Int) (db : ApptDB) :
    Except Err (ApptDB × String) :=
  match findAppt db.appointments apptId with
  | none => .error (.notFound "Appointment not found")
  | some appt =>
    if userRole = .customer && appt.customer ≠ userId then .error .forbidden
    else if appt.status = .cancelled || appt.status = .completed
        || appt.status = .noShow then
      .error (.invalidState
        "Appointment cannot be cancelled once completed or marked as no-show")
    else
      let message :=
        if now < appt.scheduledDate - cancellationCutoffHours * 60
        then "Appointment cancelled successfully"
        else "Appointment cancelled. Note: less than 24 hours before the scheduled time."
      .ok ({ db with appointments :=
              replaceAppt db.appointments (cancelledAppt userId reason now appt) },
           message)

/-- `markNoShow` (lines 435-464): after the 404 lookup there is NO status
guard — the appointment is set to `no_show` and one history entry is pushed,
whatever its current status. -/
def markNoShow (userId : Nat) (apptId : Nat) (db : ApptDB) :
    Except Err ApptDB :=
  match findAppt db.appointments apptId with
  | none => .error (.notFound "Appointment not found")
  | some appt =>
    let appt1 := { appt with
      status := .noShow
      statusHistory := appt.statusHistory
        ++ [⟨.noShow, userId, "Customer did not show up"⟩] }
    .ok { db with appointments := replaceAppt db.appointments appt1 }

/-- The property the `createAppointment`/`assignSalesStaff` conflict lookup
tests, stated declaratively: some live (non-soft-deleted) appointment of this
staff member sits at exactly the requested timestamp and is not in a
`cancelled`/`no_show` status. -/
def HasConflictAt (db : List Appointment) (staffId : Nat) (t : Int) : Prop :=
  ∃ a ∈ db, a.isDeleted = false ∧ a.assignedSalesStaff = some staffId
    ∧ a.scheduledDate = t ∧ a.status ≠ .cancelled ∧ a.status ≠ .noShow

/-! ## Concrete fixtures used by witnesses and counterexamples -/

/-- Test fixture: a minimal project record. -/
def sampleProject : Project :=
  { id := 10
    customer := 2
    status := .draft
    blueprintCurrentVersion := 1
    costing := { currentVersion := 1, versions := [⟨1, 100000⟩],
                 approvedAmount := none }
    customerApproval := { isApproved := false, approvedAt := none,
                          approvedVersion := none }
    paymentStages :=
      { initial := ⟨defaultPctInitial, none⟩
        midpoint := ⟨defaultPctMidpoint, none⟩
        final := ⟨defaultPctFinal, none⟩ }
    fabrication := { startedAt := none, completedAt := none, progress := 0 }
    statusHistory := []
    isDeleted := false }

/-- Test fixture: a minimal payment record. -/
def samplePayment : Payment :=
  { id := 1
    project := 10
    customer := 2
    stage := .initial
    amountExpected := some 30000
    amountReceived := none
    paymentMethod := none
    paymentProof := none
    status := .pending
    verification := none
    receipt := none
    statusHistory := []
    createdAt := ⟨2024, 0, 5, 9, 0⟩
    isDeleted := false }

/-- Test fixture: a minimal appointment record (10:00 on the epoch day). -/
def sampleAppt : Appointment :=
  { id := 7
    customer := 2
    assignedSalesStaff := some 5
    scheduledDate := 600
    appointmentType := .ocularVisit
    status := .scheduled
    cancellation := none
    statusHistory := []
    isDeleted := false }

/-- Test fixture: an active sales-staff user. -/
def sampleStaff : User :=
  { id := 5, role := .salesStaff, isActive := true, isDeleted := false }

/-- Fixture for the receipt-numbering counterexample: payment 1 was created
in 2023, payment 2 in 2024; both are awaiting verification.  The owning
project is in `draft` so verification does not advance it. -/
def receiptYearDb : LedgerState :=
  { projects := [sampleProject]
    payments :=
      [ { samplePayment with
          id := 1
          status := .submitted
          createdAt := ⟨2023, 4, 10, 9, 0⟩ }
      , { samplePayment with
          id := 2
          stage := .midpoint
          status := .submitted
          createdAt := ⟨2024, 0, 20, 9, 0⟩ } ] }

/-- First verification against `receiptYearDb` (payment 1, January 2024). -/
def receiptYearRun1 : Option LedgerState :=
  (verifyPayment 9 1 300 "ref1" "" ⟨2024, 0, 15, 10, 0⟩ receiptYearDb).toOption

/-- Second verification (payment 2, still January 2024). -/
def receiptYearRun2 : Option LedgerState :=
  receiptYearRun1.bind (fun s1 =>
    (verifyPayment 9 2 400 "ref2" "" ⟨2024, 0, 20, 11, 0⟩ s1).toOption)

/-- Fixture: the final-stage payment of `sampleProject`, already
submitted. -/
def finalStagePay : Payment :=
  { samplePayment with stage := .final, status := .submitted }

/-- Fixture: `sampleProject` waiting for its final payment. -/
def finalStageProj : Project :=
  { sampleProject with status := .pendingFinalPayment }

/-- Fixture: ledger holding `finalStageProj` and `finalStagePay`. -/
def finalStageDb : LedgerState :=
  { projects := [finalStageProj], payments := [finalStagePay] }

/-- Fixture: `sampleProject` awaiting customer approval. -/
def pendingApprovalProj : Project :=
  { sampleProject with status := .pendingCustomerApproval }

/-- Fixture: ledger holding only `pendingApprovalProj` and no payments. -/
def approvalDb : LedgerState :=
  { projects := [pendingApprovalProj], payments := [] }

/-- Fixture: two submitted payments both created in 2024. -/
def sameYearDb : LedgerState :=
  { projects := [sampleProject]
    payments :=
      [ { samplePayment with id := 1, status := .submitted }
      , { samplePayment with
          id := 2
          stage := .midpoint
          status := .submitted } ] }

/-- State after verifying payment 1 of `sameYearDb` in January 2024. -/
def sameYearS1 : LedgerState :=
  (verifyPayment 9 1 300 "r1" "" ⟨2024, 0, 15, 10, 0⟩
    sameYearDb).toOption.getD ⟨[], []⟩

/-- State after additionally verifying payment 2 in February 2024. -/
def sameYearS2 : LedgerState :=
  (verifyPayment 9 2 400 "r2" "" ⟨2024, 1, 3, 11, 0⟩
    sameYearS1).toOption.getD ⟨[], []⟩

/-- Fixture for the no-show counterexample: a single already-`completed`
appointment. -/
def doneApptDb : ApptDB :=
  { users := [sampleStaff]
    appointments := [{ sampleAppt with status := .completed }] }

/-- Fixture for the soft-delete counterexample: payment 3 is soft-deleted but
already carries a 2024 receipt; payment 1 is live and awaiting
verification. -/
def softDeletedLedger : LedgerState :=
  { projects := [sampleProject]
    payments :=
      [ { samplePayment with
          id := 3
          stage := .final
          status := .verified
          isDeleted := true
          receipt := some ⟨⟨2024, 1, 1⟩, ⟨2024, 0, 2, 9, 0⟩⟩
          createdAt := ⟨2024, 0, 2, 9, 0⟩ }
      , { samplePayment with id := 1, status := .submitted } ] }

/-- Verification of the live payment of `softDeletedLedger` (February 2024). -/
def softDeletedRun : Option LedgerState :=
  (verifyPayment 9 1 300 "ref1" "" ⟨2024, 1, 5, 10, 0⟩ softDeletedLedger).toOption

end RMV

namespace RMV

/-! ## Shared helper lemmas -/

/-- `saveProject` only recomputes the stage amounts; every other field is
untouched. -/
theorem saveProject_preserves (p : Project) :
    (saveProject p).id = p.id ∧ (saveProject p).customer = p.customer ∧
    (saveProject p).status = p.status ∧
    (saveProject p).blueprintCurrentVersion = p.blueprintCurrentVersion ∧
    (saveProject p).costing = p.costing ∧
    (saveProject p).customerApproval = p.customerApproval ∧
    (saveProject p).fabrication = p.fabrication ∧
    (saveProject p).statusHistory = p.statusHistory ∧
    (saveProject p).isDeleted = p.isDeleted := by
  cases h : p.costing.approvedAmount with
  | none => simp [saveProject, calcPaymentStageAmounts, h]
  | some total =>
    by_cases ht : total = 0 <;>
      simp [saveProject, calcPaymentStageAmounts, h, ht]

/-- The amounts `saveProject` derives when `approvedAmount` holds a nonzero
value. -/
theorem saveProject_amounts (p : Project) (total : Int)
    (hset : p.costing.approvedAmount = some total) (hnz : total ≠ 0) :
    (saveProject p).paymentStages.initial.amount
        = some (jsRound100 (total * p.paymentStages.initial.percentage)) ∧
    (saveProject p).paymentStages.midpoint.amount
        = some (jsRound100 (total * p.paymentStages.midpoint.percentage)) ∧
    (saveProject p).paymentStages.final.amount
        = some (total
            - jsRound100 (total * p.paymentStages.initial.percentage)
            - jsRound100 (total * p.paymentStages.midpoint.percentage)) := by
  refine ⟨?_, ?_, ?_⟩ <;>
    simp only [saveProject, calcPaymentStageAmounts, hset, if_neg hnz]

/-- Replacing by a key that occurs nowhere in the list is the identity. -/
theorem map_replace_eq_self {α : Type} (getId : α → Nat) (pid : Nat) (p' : α)
    (db : List α) (h : ∀ q ∈ db, getId q ≠ pid) :
    db.map (fun q => if getId q = pid then p' else q) = db := by
  induction db with
  | nil => rfl
  | cons q rest ih =>
    simp only [List.map_cons]
    rw [if_neg (h q (List.mem_cons_self q rest)),
        ih (fun r hr => h r (List.mem_cons_of_mem q hr))]

/-- Unpacking a successful soft-delete-filtered `findById`: the document is
in the collection, is not soft-deleted, and carries the requested id. -/
theorem find?_filter_spec {α : Type} (del : α → Bool) (pred : α → Bool)
    (db : List α) (p : α)
    (h : (db.filter (fun r => !del r)).find? pred = some p) :
    p ∈ db ∧ del p = false ∧ pred p = true := by
  have h1 := List.find?_some h
  have h2 := List.mem_of_find?_eq_some h
  rw [List.mem_filter] at h2
  exact ⟨h2.1, by simpa using h2.2, h1⟩

/-- After saving an updated document (same id, still live) into a collection
with distinct ids, the filtered `findById` returns the update. -/
theorem find?_filter_replace {α : Type} (getId : α → Nat) (del : α → Bool)
    (db : List α) (pid : Nat) (p p' : α)
    (hnodup : (db.map getId).Nodup)
    (hfind : (db.filter (fun r => !del r)).find? (fun r => getId r == pid)
        = some p)
    (hid : getId p' = pid) (hdel : del p' = false) :
    ((db.map (fun q => if getId q = pid then p' else q)).filter
        (fun r => !del r)).find? (fun r => getId r == pid) = some p' := by
  induction db with
  | nil => simp [List.find?] at hfind
  | cons q rest ih =>
    rw [List.map_cons, List.nodup_cons] at hnodup
    by_cases hq : getId q = pid
    · simp only [List.map_cons, if_pos hq, List.filter_cons, hdel,
        Bool.not_false, if_pos]
      rw [List.find?_cons_of_pos _ (by simp [hid])]
    · simp only [List.map_cons, if_neg hq]
      by_cases hdq : del q
      · simp only [List.filter_cons, hdq, Bool.not_true] at hfind ⊢
        simp only [if_neg (by simp : ¬ (false = true))] at hfind ⊢
        exact ih hnodup.2 hfind
      · simp only [List.filter_cons, eq_false_of_ne_true hdq,
          Bool.not_false, if_pos] at hfind ⊢
        rw [List.find?_cons_of_neg _ (by simp [hq])] at hfind ⊢
        exact ih hnodup.2 hfind

/-- Toggling one document (distinct ids) from not-counted to counted raises
a `countP` by exactly one. -/
theorem countP_replace_toggle {α : Type} (getId : α → Nat) (pred : α → Bool)
    (db : List α) (pid : Nat) (p p' : α)
    (hnodup : (db.map getId).Nodup)
    (hmem : p ∈ db) (hpid : getId p = pid)
    (hold : pred p = false) (hnew : pred p' = true) :
    (db.map (fun q => if getId q = pid then p' else q)).countP pred
      = db.countP pred + 1 := by
  induction db with
  | nil => cases hmem
  | cons q rest ih =>
    rw [List.map_cons, List.nodup_cons] at hnodup
    by_cases hq : getId q = pid
    · have hpq : p = q := by
        rcases List.mem_cons.mp hmem with rfl | hrest
        · rfl
        · exact absurd (hq ▸ hpid ▸ List.mem_map_of_mem getId hrest)
            hnodup.1
      subst hpq
      simp only [List.map_cons, if_pos hq]
      rw [map_replace_eq_self getId pid p' rest
          (fun r hr hrid => hnodup.1
            (by rw [hq, ← hrid]; exact List.mem_map_of_mem getId hr))]
      simp [List.countP_cons, hold, hnew]
    · have hrest : p ∈ rest := by
        rcases List.mem_cons.mp hmem with rfl | hrest
        · exact absurd hpid hq
        · exact hrest
      simp only [List.map_cons, if_neg hq, List.countP_cons,
        ih hnodup.2 hrest]
      omega

/-- A successful `find?` splits the list into conflicted prefix, hit, and
remainder. -/
theorem find?_eq_some_split {α : Type} (l : List α) (pred : α → Bool) (a : α)
    (h : l.find? pred = some a) :
    ∃ l1 l2, l = l1 ++ a :: l2 ∧ (∀ b ∈ l1, pred b = false) ∧
      pred a = true := by
  induction l with
  | nil => cases h
  | cons q rest ih =>
    by_cases hq : pred q
    · rw [List.find?_cons_of_pos _ hq] at h
      cases h
      refine ⟨[], rest, rfl, ?_, hq⟩
      intro b hb
      cases hb
    · rw [List.find?_cons_of_neg _ (by simpa using hq)] at h
      obtain ⟨l1, l2, heq, hall, ha⟩ := ih h
      refine ⟨q :: l1, l2, by rw [heq]; rfl, ?_, ha⟩
      intro b hb
      rcases List.mem_cons.mp hb with rfl | hb
      · exact eq_false_of_ne_true hq
      · exact hall b hb

/-- The `findOne` conflict lookup of the scheduling engine returns nothing
exactly when the staff member has no conflicting appointment. -/
theorem findConflict_none_iff (db : List Appointment) (staffId : Nat) (t : Int) :
    findConflict db staffId t = none ↔ ¬ HasConflictAt db staffId t := by
  unfold findConflict HasConflictAt
  rw [List.find?_eq_none]
  constructor
  · rintro h ⟨a, hmem, hdel, hassn, hsched, hc, hns⟩
    have := h a (List.mem_filter.mpr ⟨hmem, by simp [hdel]⟩)
    simp [hassn, hsched, hc, hns] at this
  · intro h a hmem hpred
    rw [List.mem_filter] at hmem
    simp only [Bool.and_eq_true, beq_iff_eq, Bool.not_eq_true',
      beq_eq_false_iff_ne, ne_eq] at hpred
    exact h ⟨a, hmem.1, by simpa using hmem.2, hpred.1.1.1, hpred.1.1.2,
      hpred.1.2, hpred.2⟩

/-- `findPayment` unfolded to its filtered `find?`. -/
theorem findPayment_eq (db : List Payment) (i : Nat) :
    findPayment db i
      = (db.filter (fun r => !r.isDeleted)).find? (fun r => r.id == i) := rfl

/-- `findProject` unfolded to its filtered `find?`. -/
theorem findProject_eq (db : List Project) (i : Nat) :
    findProject db i
      = (db.filter (fun r => !r.isDeleted)).find? (fun r => r.id == i) := rfl

/-- `findAppt` unfolded to its filtered `find?`. -/
theorem findAppt_eq (db : List Appointment) (i : Nat) :
    findAppt db i
      = (db.filter (fun r => !r.isDeleted)).find? (fun r => r.id == i) := rfl

/-- Saving an updated payment makes `findById` return the update. -/
theorem findPayment_replace (db : List Payment) (pid : Nat) (p p' : Payment)
    (hnodup : (db.map Payment.id).Nodup)
    (hfind : findPayment db pid = some p)
    (hid : p'.id = pid) (hdel : p'.isDeleted = false) :
    findPayment (replacePayment db p') pid = some p' := by
  rw [findPayment_eq] at hfind ⊢
  unfold replacePayment
  simp only [hid]
  exact find?_filter_replace Payment.id Payment.isDeleted db pid p p'
    hnodup hfind hid hdel

/-- Saving an updated project makes `findById` return the update. -/
theorem findProject_replace (db : List Project) (pid : Nat) (p p' : Project)
    (hnodup : (db.map Project.id).Nodup)
    (hfind : findProject db pid = some p)
    (hid : p'.id = pid) (hdel : p'.isDeleted = false) :
    findProject (replaceProject db p') pid = some p' := by
  rw [findProject_eq] at hfind ⊢
  unfold replaceProject
  simp only [hid]
  exact find?_filter_replace Project.id Project.isDeleted db pid p p'
    hnodup hfind hid hdel

/-- Saving an updated appointment makes `findById` return the update. -/
theorem findAppt_replace (db : List Appointment) (pid : Nat)
    (p p' : Appointment)
    (hnodup : (db.map Appointment.id).Nodup)
    (hfind : findAppt db pid = some p)
    (hid : p'.id = pid) (hdel : p'.isDeleted = false) :
    findAppt (replaceAppt db p') pid = some p' := by
  rw [findAppt_eq] at hfind ⊢
  unfold replaceAppt
  simp only [hid]
  exact find?_filter_replace Appointment.id Appointment.isDeleted db pid p p'
    hnodup hfind hid hdel

/-- Saving an updated payment does not change the stored ids. -/
theorem replacePayment_map_id (db : List Payment) (p' : Payment) :
    (replacePayment db p').map Payment.id = db.map Payment.id := by
  unfold replacePayment
  induction db with
  | nil => rfl
  | cons q rest ih =>
    simp only [List.map_cons, ih]
    by_cases h : q.id = p'.id <;> simp [h]

/-- Saving an updated project does not change the stored ids. -/
theorem replaceProject_map_id (db : List Project) (p' : Project) :
    (replaceProject db p').map Project.id = db.map Project.id := by
  unfold replaceProject
  induction db with
  | nil => rfl
  | cons q rest ih =>
    simp only [List.map_cons, ih]
    by_cases h : q.id = p'.id <;> simp [h]

/-- `advancedProject` keeps the document id. -/
theorem advancedProject_id (userId : Nat) (now : DateTime) (stage : Stage)
    (proj : Project) :
    (advancedProject userId now stage proj).id = proj.id := by
  by_cases h : stage = Stage.initial <;> simp [advancedProject, h]

/-- `advancedProject` keeps the soft-delete flag. -/
theorem advancedProject_isDeleted (userId : Nat) (now : DateTime)
    (stage : Stage) (proj : Project) :
    (advancedProject userId now stage proj).isDeleted = proj.isDeleted := by
  by_cases h : stage = Stage.initial <;> simp [advancedProject, h]

/-- The status `advancedProject` stores: `in_fabrication` for the initial
stage, otherwise `stageStatusMap[stage]`. -/
theorem advancedProject_status (userId : Nat) (now : DateTime) (stage : Stage)
    (proj : Project) :
    (advancedProject userId now stage proj).status
      = if stage = .initial then .inFabrication else stageStatusMapFor stage := by
  by_cases h : stage = Stage.initial <;> simp [advancedProject, h]

/-- For the initial stage, `advancedProject` stamps
`fabrication.startedAt`. -/
theorem advancedProject_startedAt (userId : Nat) (now : DateTime)
    (proj : Project) :
    (advancedProject userId now .initial proj).fabrication.startedAt
      = some now := by
  simp [advancedProject]

/-- Invariants of any successful `verifyPayment` run: the payment existed in
`submitted` status and the saved payment collection replaces it with the
verified document carrying the generated receipt. -/
theorem verifyPayment_ok_inv (userId payId : Nat) (amt : Int)
    (ref notes : String) (now : DateTime) (s s1 : LedgerState)
    (h : verifyPayment userId payId amt ref notes now s = .ok s1) :
    ∃ pay, findPayment s.payments payId = some pay ∧
      pay.status = .submitted ∧
      s1.payments = replacePayment s.payments
        (verifiedPayment userId amt ref notes now s.payments pay) := by
  unfold verifyPayment at h
  cases hf : findPayment s.payments payId with
  | none => rw [hf] at h; cases h
  | some pay =>
    rw [hf] at h
    dsimp only at h
    by_cases hs : pay.status = PayStatus.submitted
    · rw [if_neg (by simp [hs])] at h
      cases hp : findProject s.projects pay.project with
      | none => rw [hp] at h; cases h
      | some proj =>
        rw [hp] at h
        dsimp only at h
        by_cases hm : proj.status = expectedStatusFor pay.stage
        · rw [if_pos hm] at h
          cases h
          exact ⟨pay, rfl, hs, rfl⟩
        · rw [if_neg hm] at h
          cases h
          exact ⟨pay, rfl, hs, rfl⟩
    · rw [if_pos (by simp [hs])] at h
      cases h

/-- C1: whenever `costing.approvedAmount` is set (to a JS-truthy value, i.e. a
nonzero number), any save derives `initial.amount = round(total·pct/100)`,
`midpoint.amount = round(total·pct/100)` and `final.amount = total - initial -
midpoint`, so the three amounts sum exactly to the approved amount. -/
theorem save_paymentStage_amounts (p : Project) (total : Int)
    (hset : p.costing.approvedAmount = some total) (hnz : total ≠ 0) :
    (saveProject p).paymentStages.initial.amount
        = some (jsRound100 (total * p.paymentStages.initial.percentage)) ∧
    (saveProject p).paymentStages.midpoint.amount
        = some (jsRound100 (total * p.paymentStages.midpoint.percentage)) ∧
    (saveProject p).paymentStages.final.amount
        = some (total
            - jsRound100 (total * p.paymentStages.initial.percentage)
            - jsRound100 (total * p.paymentStages.midpoint.percentage)) ∧
    ∀ ia ma fa : Int,
      (saveProject p).paymentStages.initial.amount = some ia →
      (saveProject p).paymentStages.midpoint.amount = some ma →
      (saveProject p).paymentStages.final.amount = some fa →
      ia + ma + fa = total := by
  refine ⟨?_, ?_, ?_, ?_⟩ <;>
    simp only [saveProject, calcPaymentStageAmounts, hset, if_neg hnz]
  intro ia ma fa hia hma hfa
  simp only [Option.some.injEq] at hia hma hfa
  omega

/-- Witness for C1: `approvedAmount = 100000` with the default 30/40/30
percentages yields stage amounts 30000/40000/30000. -/
theorem save_paymentStage_amounts_witness :
    (saveProject
      { id := 1, customer := 2, status := ProjStatus.approved,
        blueprintCurrentVersion := 1,
        costing := { currentVersion := 1, versions := [⟨1, 100000⟩],
                     approvedAmount := some 100000 },
        customerApproval := { isApproved := true, approvedAt := none,
                              approvedVersion := none },
        paymentStages :=
          { initial := { percentage := defaultPctInitial, amount := none }
            midpoint := { percentage := defaultPctMidpoint, amount := none }
            final := { percentage := defaultPctFinal, amount := none } },
        fabrication := { startedAt := none, completedAt := none, progress := 0 },
        statusHistory := [], isDeleted := false }).paymentStages.initial.amount
      = some 30000 := by
  have h := save_paymentStage_amounts
    { id := 1, customer := 2, status := ProjStatus.approved,
      blueprintCurrentVersion := 1,
      costing := { currentVersion := 1, versions := [⟨1, 100000⟩],
                   approvedAmount := some 100000 },
      customerApproval := { isApproved := true, approvedAt := none,
                            approvedVersion := none },
      paymentStages :=
        { initial := { percentage := defaultPctInitial, amount := none }
          midpoint := { percentage := defaultPctMidpoint, amount := none }
          final := { percentage := defaultPctFinal, amount := none } },
      fabrication := { startedAt := none, completedAt := none, progress := 0 },
      statusHistory := [], isDeleted := false }
    100000 rfl (by decide)
  rw [h.1]
  decide

/-- C3: for a payment in `submitted` status, `verifyPayment` always marks
the payment `verified`; it touches the owning project only when the
project's status equals the stage's expected predecessor, in which case the
stored status is `in_fabrication` for the initial stage (with
`fabrication.startedAt` stamped) and `stageStatusMap[stage]` otherwise — in
particular `completed` for the final stage from `pending_final_payment`; on
any other project status the project collection is left entirely
unchanged. -/
theorem verifyPayment_cascade (userId payId : Nat) (amt : Int)
    (ref notes : String) (now : DateTime) (s : LedgerState)
    (pay : Payment) (proj : Project)
    (hnodupPay : (s.payments.map Payment.id).Nodup)
    (hnodupProj : (s.projects.map Project.id).Nodup)
    (hfind : findPayment s.payments payId = some pay)
    (hsub : pay.status = .submitted)
    (hproj : findProject s.projects pay.project = some proj) :
    ∃ s1, verifyPayment userId payId amt ref notes now s = .ok s1 ∧
      (∃ pay2, findPayment s1.payments payId = some pay2 ∧
        pay2.status = .verified) ∧
      (proj.status ≠ expectedStatusFor pay.stage → s1.projects = s.projects) ∧
      (proj.status = expectedStatusFor pay.stage →
        ∃ proj2, findProject s1.projects pay.project = some proj2 ∧
          proj2.status = (if pay.stage = .initial then .inFabrication
                          else stageStatusMapFor pay.stage) ∧
          (pay.stage = .initial → proj2.fabrication.startedAt = some now) ∧
          (pay.stage = .final → proj2.status = .completed)) := by
  have hun : (s.payments.filter (fun r => !r.isDeleted)).find?
      (fun r => r.id == payId) = some pay := by
    rw [← findPayment_eq]; exact hfind
  obtain ⟨hmem, hdel, hpred⟩ := find?_filter_spec _ _ _ _ hun
  have hpayid : pay.id = payId := by simpa using hpred
  have hunP : (s.projects.filter (fun r => !r.isDeleted)).find?
      (fun r => r.id == pay.project) = some proj := by
    rw [← findProject_eq]; exact hproj
  obtain ⟨hmemP, hdelP, hpredP⟩ := find?_filter_spec _ _ _ _ hunP
  have hprojid : proj.id = pay.project := by simpa using hpredP
  set pay1 := verifiedPayment userId amt ref notes now s.payments pay with hpay1
  have hpay1id : pay1.id = payId := hpayid
  have hpay1del : pay1.isDeleted = false := hdel
  have hpayfind : findPayment (replacePayment s.payments pay1) payId
      = some pay1 :=
    findPayment_replace s.payments payId pay pay1 hnodupPay hfind
      hpay1id hpay1del
  obtain ⟨hsid, hscust, hsstat, hsbp, hscost, hsca, hsfab, hshist, hsdel⟩ :=
    saveProject_preserves (advancedProject userId now pay.stage proj)
  by_cases hm : proj.status = expectedStatusFor pay.stage
  · refine ⟨⟨replaceProject s.projects
        (saveProject (advancedProject userId now pay.stage proj)),
        replacePayment s.payments pay1⟩, ?_, ?_, ?_, ?_⟩
    · unfold verifyPayment
      rw [hfind]
      dsimp only
      rw [if_neg (by simp [hsub]), hproj]
      dsimp only
      rw [if_pos hm]
    · exact ⟨pay1, hpayfind, rfl⟩
    · intro hne; exact absurd hm hne
    · intro _
      refine ⟨saveProject (advancedProject userId now pay.stage proj),
        ?_, ?_, ?_, ?_⟩
      · exact findProject_replace s.projects pay.project proj _ hnodupProj
          hproj (by rw [hsid, advancedProject_id, hprojid])
          (by rw [hsdel, advancedProject_isDeleted]; exact hdelP)
      · rw [hsstat, advancedProject_status]
      · intro hini
        rw [hsfab, hini]
        exact advancedProject_startedAt userId now proj
      · intro hfin
        rw [hsstat, advancedProject_status, hfin]
        simp [stageStatusMapFor]
  · refine ⟨⟨s.projects, replacePayment s.payments pay1⟩,
      ?_, ?_, ?_, ?_⟩
    · unfold verifyPayment
      rw [hfind]
      dsimp only
      rw [if_neg (by simp [hsub]), hproj]
      dsimp only
      rw [if_neg hm]
    · exact ⟨pay1, hpayfind, rfl⟩
    · intro _; rfl
    · intro heq; exact absurd heq hm

/-- Witness for C3: verifying the final-stage payment while the project is
in `pending_final_payment` completes the project and verifies the
payment. -/
theorem verifyPayment_cascade_witness :
    ∃ s1, verifyPayment 9 1 30000 "ref" "note" ⟨2024, 0, 15, 10, 0⟩
        finalStageDb = .ok s1 ∧
      (∃ pay2, findPayment s1.payments 1 = some pay2 ∧
        pay2.status = .verified) ∧
      (finalStageProj.status ≠ expectedStatusFor finalStagePay.stage →
        s1.projects = finalStageDb.projects) ∧
      (finalStageProj.status = expectedStatusFor finalStagePay.stage →
        ∃ proj2, findProject s1.projects finalStagePay.project = some proj2 ∧
          proj2.status = (if finalStagePay.stage = .initial
                          then .inFabrication
                          else stageStatusMapFor finalStagePay.stage) ∧
          (finalStagePay.stage = .initial →
            proj2.fabrication.startedAt = some ⟨2024, 0, 15, 10, 0⟩) ∧
          (finalStagePay.stage = .final → proj2.status = .completed)) :=
  verifyPayment_cascade 9 1 30000 "ref" "note" ⟨2024, 0, 15, 10, 0⟩
    finalStageDb finalStagePay finalStageProj (by decide) (by decide)
    (by decide) (by decide) (by decide)

/-- C2: for a project in `pending_customer_approval` approved by its own
customer (with at least one costing version carrying a nonzero total, and no
payments yet for the project), `approveProject` snapshots the latest costing
total into `costing.approvedAmount`, creates exactly three pending Payment
records whose `expected` amounts are the derived stage amounts, transitions
the project first to `approved` and then to `pending_initial_payment`
(recording both history entries), and afterwards exactly one payment exists
per stage. -/
theorem approveProject_creates_three_payments
    (userId projId : Nat) (now : DateTime) (id1 id2 id3 : Nat)
    (s : LedgerState) (proj : Project) (latest : CostingVersion)
    (hnodupProj : (s.projects.map Project.id).Nodup)
    (hfind : findProject s.projects projId = some proj)
    (howner : proj.customer = userId)
    (hstatus : proj.status = .pendingCustomerApproval)
    (hlast : proj.costing.versions.getLast? = some latest)
    (hnz : latest.totalAmount ≠ 0)
    (hnone : ∀ q ∈ s.payments, q.project ≠ proj.id) :
    ∃ s1, approveProject userId projId now id1 id2 id3 s = .ok s1 ∧
      (∃ pI pM pF : Payment,
        s1.payments = s.payments ++ [pI, pM, pF] ∧
        pI.project = proj.id ∧ pI.stage = .initial ∧ pI.status = .pending ∧
        pI.amountExpected = some (jsRound100
          (latest.totalAmount * proj.paymentStages.initial.percentage)) ∧
        pM.project = proj.id ∧ pM.stage = .midpoint ∧ pM.status = .pending ∧
        pM.amountExpected = some (jsRound100
          (latest.totalAmount * proj.paymentStages.midpoint.percentage)) ∧
        pF.project = proj.id ∧ pF.stage = .final ∧ pF.status = .pending ∧
        pF.amountExpected = some (latest.totalAmount
          - jsRound100
            (latest.totalAmount * proj.paymentStages.initial.percentage)
          - jsRound100
            (latest.totalAmount * proj.paymentStages.midpoint.percentage))) ∧
      (∀ st : Stage, (s1.payments.filter
          (fun q => q.project == proj.id && q.stage == st)).length = 1) ∧
      (∃ proj2, findProject s1.projects projId = some proj2 ∧
        proj2.status = .pendingInitialPayment ∧
        proj2.costing.approvedAmount = some latest.totalAmount ∧
        ∃ e1 e2 : StatusEntry ProjStatus,
          proj2.statusHistory = proj.statusHistory ++ [e1, e2] ∧
          e1.status = .approved ∧ e2.status = .pendingInitialPayment) := by
  have hunP : (s.projects.filter (fun r => !r.isDeleted)).find?
      (fun r => r.id == projId) = some proj := by
    rw [← findProject_eq]; exact hfind
  obtain ⟨hmemP, hdelP, hpredP⟩ := find?_filter_spec _ _ _ _ hunP
  have hprojid : proj.id = projId := by simpa using hpredP
  -- the project as first saved (status approved, amounts derived)
  set proj0 : Project := { proj with
    customerApproval :=
      { isApproved := true
        approvedAt := some now
        approvedVersion := some ⟨proj.blueprintCurrentVersion,
                                 proj.costing.currentVersion⟩ }
    costing := { proj.costing with
      approvedAmount := some latest.totalAmount }
    status := .approved
    statusHistory := proj.statusHistory
      ++ [⟨.approved, userId, "Approved by customer"⟩] } with hproj0
  set proj1 : Project := saveProject proj0 with hproj1
  obtain ⟨h0id, h0cust, h0stat, h0bp, h0cost, h0ca, h0fab, h0hist, h0del⟩ :=
    saveProject_preserves proj0
  obtain ⟨hamtI, hamtM, hamtF⟩ := saveProject_amounts proj0 latest.totalAmount
    rfl hnz
  -- the three created payment documents
  set pI : Payment :=
    { id := id1
      project := proj.id
      customer := proj.customer
      stage := .initial
      amountExpected := proj1.paymentStages.initial.amount
      amountReceived := none
      paymentMethod := none
      paymentProof := none
      status := .pending
      verification := none
      receipt := none
      statusHistory := []
      createdAt := now
      isDeleted := false } with hpI
  set pM : Payment :=
    { id := id2
      project := proj.id
      customer := proj.customer
      stage := .midpoint
      amountExpected := proj1.paymentStages.midpoint.amount
      amountReceived := none
      paymentMethod := none
      paymentProof := none
      status := .pending
      verification := none
      receipt := none
      statusHistory := []
      createdAt := now
      isDeleted := false } with hpM
  set pF : Payment :=
    { id := id3
      project := proj.id
      customer := proj.customer
      stage := .final
      amountExpected := proj1.paymentStages.final.amount
      amountReceived := none
      paymentMethod := none
      paymentProof := none
      status := .pending
      verification := none
      receipt := none
      statusHistory := []
      createdAt := now
      isDeleted := false } with hpF
  -- the project as finally saved
  set projF : Project := saveProject { proj1 with
    status := .pendingInitialPayment
    statusHistory := proj1.statusHistory
      ++ [⟨.pendingInitialPayment, userId,
           "Waiting for initial 30% payment"⟩] } with hprojF
  -- the unique-index checks all pass
  have hanyBase : ∀ st : Stage,
      (s.payments.any (fun q => q.project == proj.id && q.stage == st))
        = false := by
    intro st
    rw [List.any_eq_false]
    intro q hq
    simp [hnone q hq]
  have hany1 : (s.payments.any
      (fun q => q.project == pI.project && q.stage == pI.stage)) = false := by
    simpa [hpI] using hanyBase .initial
  have hany2 : ((s.payments ++ [pI]).any
      (fun q => q.project == pM.project && q.stage == pM.stage)) = false := by
    rw [List.any_append]
    simp [hpI, hpM, hanyBase .midpoint]
  have hany3 : ((s.payments ++ [pI] ++ [pM]).any
      (fun q => q.project == pF.project && q.stage == pF.stage)) = false := by
    rw [List.any_append, List.any_append]
    simp [hpI, hpM, hpF, hanyBase .final]
  have heq : approveProject userId projId now id1 id2 id3 s
      = .ok ⟨replaceProject (replaceProject s.projects proj1) projF,
             s.payments ++ [pI] ++ [pM] ++ [pF]⟩ := by
    unfold approveProject
    rw [hfind]
    dsimp only
    rw [if_neg (by simp [howner]), if_neg (by simp [hstatus]), hlast]
    dsimp only
    unfold insertPayment
    rw [hany1, if_neg Bool.false_ne_true]
    dsimp only
    rw [hany2, if_neg Bool.false_ne_true]
    dsimp only
    rw [hany3, if_neg Bool.false_ne_true]
  refine ⟨_, heq, ?_, ?_, ?_⟩
  · refine ⟨pI, pM, pF, ?_, rfl, rfl, rfl, ?_, rfl, rfl, rfl, ?_, rfl, rfl,
      rfl, ?_⟩
    · simp [List.append_assoc]
    · rw [hpI]
      dsimp only
      rw [hproj1, hamtI]
    · rw [hpM]
      dsimp only
      rw [hproj1, hamtM]
    · rw [hpF]
      dsimp only
      rw [hproj1, hamtF]
  · intro st
    show ((s.payments ++ [pI] ++ [pM] ++ [pF]).filter
      (fun q => q.project == proj.id && q.stage == st)).length = 1
    rw [List.filter_append, List.filter_append, List.filter_append]
    rw [List.filter_eq_nil_iff.mpr (fun q hq => by simp [hnone q hq])]
    cases st <;> simp [hpI, hpM, hpF]
  · obtain ⟨hFid, hFcust, hFstat, hFbp, hFcost, hFca, hFfab, hFhist, hFdel⟩ :=
      saveProject_preserves { proj1 with
        status := .pendingInitialPayment
        statusHistory := proj1.statusHistory
          ++ [⟨.pendingInitialPayment, userId,
               "Waiting for initial 30% payment"⟩] }
    have hfind1 : findProject (replaceProject s.projects proj1) projId
        = some proj1 :=
      findProject_replace s.projects projId proj proj1 hnodupProj hfind
        (by rw [hproj1, h0id, hproj0]; exact hprojid)
        (by rw [hproj1, h0del, hproj0]; exact hdelP)
    have hnodup1 : ((replaceProject s.projects proj1).map Project.id).Nodup := by
      rw [replaceProject_map_id]; exact hnodupProj
    refine ⟨projF, ?_, ?_, ?_, ?_⟩
    · exact findProject_replace _ projId proj1 projF hnodup1 hfind1
        (by rw [hprojF, hFid]; show proj1.id = projId
            rw [hproj1, h0id, hproj0]; exact hprojid)
        (by rw [hprojF, hFdel]; show proj1.isDeleted = false
            rw [hproj1, h0del, hproj0]; exact hdelP)
    · rw [hprojF, hFstat]
    · rw [hprojF, hFcost]
      show proj1.costing.approvedAmount = some latest.totalAmount
      rw [hproj1, h0cost, hproj0]
    · refine ⟨⟨.approved, userId, "Approved by customer"⟩,
        ⟨.pendingInitialPayment, userId,
          "Waiting for initial 30% payment"⟩, ?_, rfl, rfl⟩
      rw [hprojF, hFhist]
      show proj1.statusHistory ++ _ = _
      rw [hproj1, h0hist, hproj0]
      simp

/-- Witness for C2: approving the fixture project (approved amount 100000,
default 30/40/30 stages) creates the three pending payments with expected
amounts 30000/40000/30000 and double-transitions the project. -/
theorem approveProject_creates_three_payments_witness :
    ∃ s1, approveProject 2 10 ⟨2024, 0, 5, 9, 0⟩ 21 22 23 approvalDb
        = .ok s1 ∧
      (∃ pI pM pF : Payment,
        s1.payments = approvalDb.payments ++ [pI, pM, pF] ∧
        pI.project = pendingApprovalProj.id ∧ pI.stage = .initial ∧
        pI.status = .pending ∧
        pI.amountExpected = some (jsRound100
          ((⟨1, 100000⟩ : CostingVersion).totalAmount
            * pendingApprovalProj.paymentStages.initial.percentage)) ∧
        pM.project = pendingApprovalProj.id ∧ pM.stage = .midpoint ∧
        pM.status = .pending ∧
        pM.amountExpected = some (jsRound100
          ((⟨1, 100000⟩ : CostingVersion).totalAmount
            * pendingApprovalProj.paymentStages.midpoint.percentage)) ∧
        pF.project = pendingApprovalProj.id ∧ pF.stage = .final ∧
        pF.status = .pending ∧
        pF.amountExpected = some ((⟨1, 100000⟩ : CostingVersion).totalAmount
          - jsRound100 ((⟨1, 100000⟩ : CostingVersion).totalAmount
            * pendingApprovalProj.paymentStages.initial.percentage)
          - jsRound100 ((⟨1, 100000⟩ : CostingVersion).totalAmount
            * pendingApprovalProj.paymentStages.midpoint.percentage))) ∧
      (∀ st : Stage, (s1.payments.filter
          (fun q => q.project == pendingApprovalProj.id
            && q.stage == st)).length = 1) ∧
      (∃ proj2, findProject s1.projects 10 = some proj2 ∧
        proj2.status = .pendingInitialPayment ∧
        proj2.costing.approvedAmount
          = some (⟨1, 100000⟩ : CostingVersion).totalAmount ∧
        ∃ e1 e2 : StatusEntry ProjStatus,
          proj2.statusHistory = pendingApprovalProj.statusHistory
            ++ [e1, e2] ∧
          e1.status = .approved ∧ e2.status = .pendingInitialPayment) :=
  approveProject_creates_three_payments 2 10 ⟨2024, 0, 5, 9, 0⟩ 21 22 23
    approvalDb pendingApprovalProj ⟨1, 100000⟩ (by decide) (by decide)
    (by decide) (by decide) (by decide) (by decide) (by decide)

/-- C5: `verifyPayment` fails with the invalid-state error for every payment
whose status is not `submitted` (an error result carries no state, so
nothing is mutated); consequently, after one successful verification —
which stores the single generated receipt on the payment — a second
`verifyPayment` call on the same payment fails with the same invalid-state
error and no second receipt is ever generated. -/
theorem verifyPayment_rejects_not_submitted (userId userId2 payId : Nat)
    (amt amt2 : Int) (ref notes ref2 notes2 : String) (now now2 : DateTime)
    (s : LedgerState) (pay : Payment)
    (hnodup : (s.payments.map Payment.id).Nodup)
    (hfind : findPayment s.payments payId = some pay) :
    (pay.status ≠ .submitted →
      verifyPayment userId payId amt ref notes now s
        = .error (.invalidState "Payment is not pending verification")) ∧
    (∀ s1, verifyPayment userId payId amt ref notes now s = .ok s1 →
      ((findPayment s1.payments payId).map Payment.receipt)
          = some (some ⟨generateReceiptNumber s.payments now, now⟩) ∧
      verifyPayment userId2 payId amt2 ref2 notes2 now2 s1
        = .error (.invalidState "Payment is not pending verification")) := by
  have hun : (s.payments.filter (fun r => !r.isDeleted)).find?
      (fun r => r.id == payId) = some pay := by
    rw [← findPayment_eq]; exact hfind
  obtain ⟨hmem, hdel, hpred⟩ := find?_filter_spec _ _ _ _ hun
  have hpayid : pay.id = payId := by simpa using hpred
  constructor
  · intro hns
    unfold verifyPayment
    rw [hfind]
    dsimp only
    rw [if_pos hns]
  · intro s1 hok
    obtain ⟨pay0, hfind0, hsub0, hpays1⟩ :=
      verifyPayment_ok_inv userId payId amt ref notes now s s1 hok
    rw [hfind] at hfind0
    cases hfind0
    have hfind1 : findPayment s1.payments payId
        = some (verifiedPayment userId amt ref notes now s.payments pay) := by
      rw [hpays1]
      exact findPayment_replace s.payments payId pay _ hnodup hfind
        hpayid hdel
    refine ⟨?_, ?_⟩
    · rw [hfind1]
      rfl
    · unfold verifyPayment
      rw [hfind1]
      dsimp only
      rw [if_pos (by intro h; cases h)]

/-- Witness for C5: a payment that is already `verified` is rejected by
`verifyPayment` with the invalid-state error. -/
theorem verifyPayment_rejects_not_submitted_witness :
    verifyPayment 9 1 300 "ref" "note" ⟨2024, 0, 15, 10, 0⟩
        ⟨[sampleProject], [{ samplePayment with status := .verified }]⟩
      = .error (.invalidState "Payment is not pending verification") :=
  (verifyPayment_rejects_not_submitted 9 9 1 300 300 "ref" "note" "ref" "note"
    ⟨2024, 0, 15, 10, 0⟩ ⟨2024, 0, 15, 10, 0⟩
    ⟨[sampleProject], [{ samplePayment with status := .verified }]⟩
    { samplePayment with status := .verified }
    (by decide) (by decide)).1 (by decide)

/-- C4 counterexample: payment 1 (created May 2023) and payment 2 (created
January 2024) are both verified in January 2024, yet both receive the SAME
receipt number, components (2024, 01, 0001) — the string
RMV-RCT-202401-0001 twice — because `generateReceiptNumber` counts existing
receipts by the payment's `createdAt` year rather than by the year the
receipt was issued.  This refutes the claim that any two payments verified
within one calendar year get distinct, strictly increasing receipt
numbers. -/
theorem receipt_numbers_collide_within_year :
    receiptYearRun2.map (fun st =>
        (((findPayment st.payments 1).bind Payment.receipt).map Receipt.number,
         ((findPayment st.payments 2).bind Payment.receipt).map Receipt.number))
      = some (some ⟨2024, 1, 1⟩, some ⟨2024, 1, 1⟩) := by
  decide

/-- C4 (amended): for two payments whose `createdAt` both fall in calendar
year `y`, verified one after the other during year `y`, the receipt number
assigned to the second carries a strictly greater sequence counter than the
first, and the two receipt numbers are distinct.  (As the counterexample
shows, the code does not guarantee this for payments *created* in different
years, because the receipt count is scoped by `createdAt`.) -/
theorem receipt_seq_strictly_increases (u1 u2 pid1 pid2 : Nat)
    (amt1 amt2 : Int) (r1 n1 r2 n2 : String) (now1 now2 : DateTime)
    (s s1 s2 : LedgerState) (p1 p2 : Payment) (y : Int)
    (hnodup : (s.payments.map Payment.id).Nodup)
    (hf1 : findPayment s.payments pid1 = some p1)
    (hr1 : p1.receipt = none)
    (hc1 : createdInYear y p1 = true)
    (hy1 : now1.year = y)
    (hok1 : verifyPayment u1 pid1 amt1 r1 n1 now1 s = .ok s1)
    (hf2 : findPayment s1.payments pid2 = some p2)
    (hc2 : createdInYear y p2 = true)
    (hy2 : now2.year = y)
    (hok2 : verifyPayment u2 pid2 amt2 r2 n2 now2 s1 = .ok s2) :
    ((findPayment s1.payments pid1).map Payment.receipt)
        = some (some ⟨generateReceiptNumber s.payments now1, now1⟩) ∧
    ((findPayment s2.payments pid2).map Payment.receipt)
        = some (some ⟨generateReceiptNumber s1.payments now2, now2⟩) ∧
    (generateReceiptNumber s.payments now1).seq
        < (generateReceiptNumber s1.payments now2).seq ∧
    generateReceiptNumber s.payments now1
        ≠ generateReceiptNumber s1.payments now2 := by
  have hun : (s.payments.filter (fun r => !r.isDeleted)).find?
      (fun r => r.id == pid1) = some p1 := by
    rw [← findPayment_eq]; exact hf1
  obtain ⟨hmem, hdel, hpred⟩ := find?_filter_spec _ _ _ _ hun
  have hpid1 : p1.id = pid1 := by simpa using hpred
  obtain ⟨pay0, hfind0, hsub0, hpays1⟩ :=
    verifyPayment_ok_inv u1 pid1 amt1 r1 n1 now1 s s1 hok1
  rw [hf1] at hfind0
  cases hfind0
  have hfindr1 : findPayment s1.payments pid1
      = some (verifiedPayment u1 amt1 r1 n1 now1 s.payments p1) := by
    rw [hpays1]
    exact findPayment_replace s.payments pid1 p1 _ hnodup hf1 hpid1 hdel
  have hnodup1 : (s1.payments.map Payment.id).Nodup := by
    rw [hpays1, replacePayment_map_id]
    exact hnodup
  have hun2 : (s1.payments.filter (fun r => !r.isDeleted)).find?
      (fun r => r.id == pid2) = some p2 := by
    rw [← findPayment_eq]; exact hf2
  obtain ⟨hmem2, hdel2, hpred2⟩ := find?_filter_spec _ _ _ _ hun2
  have hpid2 : p2.id = pid2 := by simpa using hpred2
  obtain ⟨pay0', hfind0', hsub0', hpays2⟩ :=
    verifyPayment_ok_inv u2 pid2 amt2 r2 n2 now2 s1 s2 hok2
  rw [hf2] at hfind0'
  cases hfind0'
  have hfindr2 : findPayment s2.payments pid2
      = some (verifiedPayment u2 amt2 r2 n2 now2 s1.payments p2) := by
    rw [hpays2]
    exact findPayment_replace s1.payments pid2 p2 _ hnodup1 hf2 hpid2 hdel2
  have hcount : countYearReceipts s1.payments y
      = countYearReceipts s.payments y + 1 := by
    rw [hpays1]
    unfold countYearReceipts replacePayment
    refine countP_replace_toggle Payment.id _ s.payments
      (verifiedPayment u1 amt1 r1 n1 now1 s.payments p1).id p1 _
      hnodup hmem rfl ?_ ?_
    · rw [hr1]
      rfl
    · exact hc1
  refine ⟨by rw [hfindr1]; rfl, by rw [hfindr2]; rfl, ?_, ?_⟩
  · show countYearReceipts s.payments now1.year + 1
      < countYearReceipts s1.payments now2.year + 1
    rw [hy1, hy2, hcount]
    omega
  · intro hcontra
    have hseq := congrArg ReceiptNumber.seq hcontra
    simp only [generateReceiptNumber] at hseq
    rw [hy1, hy2, hcount] at hseq
    omega

/-- Witness for the amended C4: the two 2024-created payments of
`sameYearDb`, verified in January and February 2024, get receipts with
sequence counters 1 and then 2. -/
theorem receipt_seq_strictly_increases_witness :
    ((findPayment sameYearS1.payments 1).map Payment.receipt)
        = some (some ⟨generateReceiptNumber sameYearDb.payments
            ⟨2024, 0, 15, 10, 0⟩, ⟨2024, 0, 15, 10, 0⟩⟩) ∧
    ((findPayment sameYearS2.payments 2).map Payment.receipt)
        = some (some ⟨generateReceiptNumber sameYearS1.payments
            ⟨2024, 1, 3, 11, 0⟩, ⟨2024, 1, 3, 11, 0⟩⟩) ∧
    (generateReceiptNumber sameYearDb.payments ⟨2024, 0, 15, 10, 0⟩).seq
        < (generateReceiptNumber sameYearS1.payments ⟨2024, 1, 3, 11, 0⟩).seq ∧
    generateReceiptNumber sameYearDb.payments ⟨2024, 0, 15, 10, 0⟩
        ≠ generateReceiptNumber sameYearS1.payments ⟨2024, 1, 3, 11, 0⟩ :=
  receipt_seq_strictly_increases 9 9 1 2 300 400 "r1" "" "r2" ""
    ⟨2024, 0, 15, 10, 0⟩ ⟨2024, 1, 3, 11, 0⟩
    sameYearDb sameYearS1 sameYearS2
    { samplePayment with id := 1, status := .submitted }
    { samplePayment with
      id := 2
      stage := .midpoint
      status := .submitted }
    2024 (by decide) (by decide) (by decide) (by decide) (by decide)
    rfl (by decide) (by decide) (by decide) rfl

/-- C6: an ocular-visit booking inside business hours appends one new
appointment owned by the caller at the requested timestamp; either some
active sales staff member is conflict-free at that exact timestamp — then
the first such member (in collection order) is pre-assigned and the
appointment starts `scheduled` — or every active sales staff member has a
conflicting appointment at that exact timestamp and the appointment starts
`pending` with no staff assigned. -/
theorem createAppointment_auto_assign (userId newId : Nat) (t : Int)
    (db : ApptDB)
    (hstart : appointmentHoursStart ≤ hourOfDay t)
    (hend : hourOfDay t < appointmentHoursEnd) :
    ∃ db', createAppointment userId newId t .ocularVisit db = .ok db' ∧
      ∃ a, db'.appointments = db.appointments ++ [a] ∧
        a.customer = userId ∧ a.scheduledDate = t ∧
        ((a.status = .pending ∧ a.assignedSalesStaff = none ∧
            ∀ u ∈ activeSalesStaff db.users,
              HasConflictAt db.appointments u.id t)
         ∨ (∃ staff pre post, a.status = .scheduled ∧
              a.assignedSalesStaff = some staff.id ∧
              activeSalesStaff db.users = pre ++ staff :: post ∧
              ¬ HasConflictAt db.appointments staff.id t ∧
              ∀ v ∈ pre, HasConflictAt db.appointments v.id t)) := by
  have h1 : ¬ (hourOfDay t < appointmentHoursStart) := not_lt.mpr hstart
  have h2 : ¬ (hourOfDay t ≥ appointmentHoursEnd) := not_le.mpr hend
  cases hfind : (activeSalesStaff db.users).find?
      (fun staff => (findConflict db.appointments staff.id t).isNone) with
  | none =>
    refine ⟨_, by unfold createAppointment
                  rw [decide_eq_false h1, decide_eq_false h2, hfind]
                  rfl, ?_⟩
    refine ⟨_, rfl, rfl, rfl, Or.inl ⟨rfl, rfl, ?_⟩⟩
    intro u hu
    have hne := List.find?_eq_none.mp hfind u hu
    by_contra hnc
    have hcnone := (findConflict_none_iff db.appointments u.id t).mpr hnc
    exact hne (by rw [hcnone]; rfl)
  | some staff =>
    obtain ⟨pre, post, hsplit, hall, hyes⟩ := find?_eq_some_split _ _ _ hfind
    refine ⟨_, by unfold createAppointment
                  rw [decide_eq_false h1, decide_eq_false h2, hfind]
                  rfl, ?_⟩
    refine ⟨_, rfl, rfl, rfl,
      Or.inr ⟨staff, pre, post, rfl, rfl, hsplit, ?_, ?_⟩⟩
    · rw [← findConflict_none_iff]
      exact Option.isNone_iff_eq_none.mp hyes
    · intro v hv
      have hne : (findConflict db.appointments v.id t).isNone = false :=
        hall v hv
      by_contra hnc
      have hcnone := (findConflict_none_iff db.appointments v.id t).mpr hnc
      rw [hcnone] at hne
      cases hne

/-- Witness for C6: the spec scenario — a second ocular-visit booking at the
identical timestamp (minute 600, i.e. 10:00) when the only active sales
staff member already holds a live appointment at that exact timestamp —
creates the new appointment in `pending` status with no staff assigned. -/
theorem createAppointment_auto_assign_witness :
    ∃ db', createAppointment 2 8 600 .ocularVisit
        ⟨[sampleStaff], [sampleAppt]⟩ = .ok db' ∧
      ∃ a, db'.appointments
          = (⟨[sampleStaff], [sampleAppt]⟩ : ApptDB).appointments ++ [a] ∧
        a.customer = 2 ∧ a.scheduledDate = 600 ∧
        ((a.status = .pending ∧ a.assignedSalesStaff = none ∧
            ∀ u ∈ activeSalesStaff
                (⟨[sampleStaff], [sampleAppt]⟩ : ApptDB).users,
              HasConflictAt
                (⟨[sampleStaff], [sampleAppt]⟩ : ApptDB).appointments
                u.id 600)
         ∨ (∃ staff pre post, a.status = .scheduled ∧
              a.assignedSalesStaff = some staff.id ∧
              activeSalesStaff
                  (⟨[sampleStaff], [sampleAppt]⟩ : ApptDB).users
                = pre ++ staff :: post ∧
              ¬ HasConflictAt
                  (⟨[sampleStaff], [sampleAppt]⟩ : ApptDB).appointments
                  staff.id 600 ∧
              ∀ v ∈ pre, HasConflictAt
                (⟨[sampleStaff], [sampleAppt]⟩ : ApptDB).appointments
                v.id 600)) :=
  createAppointment_auto_assign 2 8 600 ⟨[sampleStaff], [sampleAppt]⟩
    (by decide) (by decide)

/-- C7: for the payment's owning customer (with a proof file attached),
`submitPaymentProof` succeeds from every status other than `verified` — in
particular a `rejected` payment may be resubmitted — storing the proof
reference and method and moving the payment to `submitted`; on a `verified`
payment the same call fails with the invalid-state error and (since an
error result carries no state) the payment is unchanged. -/
theorem submitPaymentProof_resubmission (userId payId : Nat)
    (method : String) (f : ProofFile) (s : LedgerState) (pay : Payment)
    (hnodup : (s.payments.map Payment.id).Nodup)
    (hfind : findPayment s.payments payId = some pay)
    (howner : pay.customer = userId) :
    (pay.status ≠ .verified →
      ∃ s1, submitPaymentProof userId payId method (some f) s = .ok s1 ∧
        findPayment s1.payments payId = some { pay with
          paymentProof := some f
          paymentMethod := some method
          status := .submitted
          statusHistory := pay.statusHistory
            ++ [⟨.submitted, userId,
                 "Payment proof submitted via " ++ method⟩] }) ∧
    (pay.status = .verified →
      submitPaymentProof userId payId method (some f) s
        = .error (.invalidState "Payment has already been verified")) := by
  have hun : (s.payments.filter (fun r => !r.isDeleted)).find?
      (fun r => r.id == payId) = some pay := by
    rw [← findPayment_eq]; exact hfind
  obtain ⟨hmem, hdel, hpred⟩ := find?_filter_spec _ _ _ _ hun
  have hpayid : pay.id = payId := by simpa using hpred
  constructor
  · intro hnv
    have heq : submitPaymentProof userId payId method (some f) s
        = .ok ⟨s.projects, replacePayment s.payments { pay with
            paymentProof := some f
            paymentMethod := some method
            status := .submitted
            statusHistory := pay.statusHistory
              ++ [⟨.submitted, userId,
                   "Payment proof submitted via " ++ method⟩] }⟩ := by
      unfold submitPaymentProof
      rw [hfind]
      dsimp only
      rw [if_neg (by simp [howner]), if_neg hnv]
    exact ⟨_, heq, findPayment_replace s.payments payId pay _ hnodup hfind
      hpayid hdel⟩
  · intro hv
    unfold submitPaymentProof
    rw [hfind]
    dsimp only
    rw [if_neg (by simp [howner]), if_pos hv]

/-- Witness for C7: the customer resubmits proof on a `rejected` payment and
it becomes `submitted`. -/
theorem submitPaymentProof_resubmission_witness :
    ∃ s1, submitPaymentProof 2 1 "gcash" (some ⟨"proof.png"⟩)
        ⟨[sampleProject], [{ samplePayment with status := .rejected }]⟩
        = .ok s1 ∧
      findPayment s1.payments 1 = some
        { { samplePayment with status := .rejected } with
          paymentProof := some ⟨"proof.png"⟩
          paymentMethod := some "gcash"
          status := .submitted
          statusHistory := { samplePayment with
              status := .rejected }.statusHistory
            ++ [⟨.submitted, 2,
                 "Payment proof submitted via " ++ "gcash"⟩] } :=
  (submitPaymentProof_resubmission 2 1 "gcash" ⟨"proof.png"⟩
    ⟨[sampleProject], [{ samplePayment with status := .rejected }]⟩
    { samplePayment with status := .rejected }
    (by decide) (by decide) (by decide)).1 (by decide)

/-- C8: for an existing appointment and an authorized caller,
`cancelAppointment` fails with an invalid-state error exactly when the
status is `cancelled`, `completed` or `no_show`; from every other status it
succeeds unconditionally, records
`isWithinPolicy = (now < scheduledDate - cutoff)` on the cancellation
record, and the policy flag influences only the success message. -/
theorem cancelAppointment_policy (userId : Nat) (role : Role) (apptId : Nat)
    (reason : Option String) (now : Int) (db : ApptDB) (appt : Appointment)
    (hnodup : (db.appointments.map Appointment.id).Nodup)
    (hfind : findAppt db.appointments apptId = some appt)
    (hauth : role = .customer → appt.customer = userId) :
    ((∃ m, cancelAppointment userId role apptId reason now db
        = .error (.invalidState m))
      ↔ (appt.status = .cancelled ∨ appt.status = .completed
          ∨ appt.status = .noShow)) ∧
    (appt.status ≠ .cancelled → appt.status ≠ .completed →
     appt.status ≠ .noShow →
      ∃ db' msg, cancelAppointment userId role apptId reason now db
          = .ok (db', msg) ∧
        (∃ a1, findAppt db'.appointments apptId = some a1 ∧
          a1.status = .cancelled ∧
          ∃ c, a1.cancellation = some c ∧ c.cancelledAt = now ∧
            (c.isWithinPolicy = true
              ↔ now < appt.scheduledDate - cancellationCutoffHours * 60)) ∧
        msg = (if now < appt.scheduledDate - cancellationCutoffHours * 60
               then "Appointment cancelled successfully"
               else "Appointment cancelled. Note: less than 24 hours before the scheduled time.")) := by
  have hun : (db.appointments.filter (fun r => !r.isDeleted)).find?
      (fun r => r.id == apptId) = some appt := by
    rw [← findAppt_eq]; exact hfind
  obtain ⟨hmem, hdel, hpred⟩ := find?_filter_spec _ _ _ _ hun
  have happtid : appt.id = apptId := by simpa using hpred
  have hg : (decide (role = Role.customer)
      && decide (appt.customer ≠ userId)) = false := by
    by_cases hr : role = Role.customer
    · simp [hr, hauth hr]
    · simp [hr]
  by_cases hterm : appt.status = .cancelled ∨ appt.status = .completed
      ∨ appt.status = .noShow
  · have hc : (decide (appt.status = ApptStatus.cancelled)
        || decide (appt.status = ApptStatus.completed)
        || decide (appt.status = ApptStatus.noShow)) = true := by
      rcases hterm with h | h | h <;> simp [h]
    have hres : cancelAppointment userId role apptId reason now db
        = .error (.invalidState
          "Appointment cannot be cancelled once completed or marked as no-show") := by
      unfold cancelAppointment
      rw [hfind]
      dsimp only
      rw [hg, hc]
      rfl
    constructor
    · exact ⟨fun _ => hterm, fun _ => ⟨_, hres⟩⟩
    · intro h1 h2 h3
      rcases hterm with h | h | h
      · exact absurd h h1
      · exact absurd h h2
      · exact absurd h h3
  · push_neg at hterm
    obtain ⟨h1, h2, h3⟩ := hterm
    have hc : (decide (appt.status = ApptStatus.cancelled)
        || decide (appt.status = ApptStatus.completed)
        || decide (appt.status = ApptStatus.noShow)) = false := by
      simp [h1, h2, h3]
    have hok : cancelAppointment userId role apptId reason now db
        = .ok (⟨db.users, replaceAppt db.appointments
              (cancelledAppt userId reason now appt)⟩,
            if now < appt.scheduledDate - cancellationCutoffHours * 60
            then "Appointment cancelled successfully"
            else "Appointment cancelled. Note: less than 24 hours before the scheduled time.") := by
      unfold cancelAppointment
      rw [hfind]
      dsimp only
      rw [hg, hc]
      rfl
    constructor
    · constructor
      · rintro ⟨m, hm⟩
        rw [hok] at hm
        cases hm
      · intro h
        rcases h with h | h | h
        · exact absurd h h1
        · exact absurd h h2
        · exact absurd h h3
    · intro _ _ _
      refine ⟨_, _, hok, ?_, rfl⟩
      refine ⟨cancelledAppt userId reason now appt,
        findAppt_replace db.appointments apptId appt _ hnodup hfind
          happtid hdel, rfl, ?_⟩
      exact ⟨_, rfl, rfl, decide_eq_true_iff⟩

/-- Witness for C8: cancelling a `scheduled` appointment one minute before
its start succeeds, records `isWithinPolicy = false` (the cutoff is 24
hours), and returns the out-of-policy message. -/
theorem cancelAppointment_policy_witness :
    ((∃ m, cancelAppointment 2 .customer 7 none 599
        ⟨[sampleStaff], [sampleAppt]⟩ = .error (.invalidState m))
      ↔ (sampleAppt.status = .cancelled ∨ sampleAppt.status = .completed
          ∨ sampleAppt.status = .noShow)) ∧
    (sampleAppt.status ≠ .cancelled → sampleAppt.status ≠ .completed →
     sampleAppt.status ≠ .noShow →
      ∃ db' msg, cancelAppointment 2 .customer 7 none 599
          ⟨[sampleStaff], [sampleAppt]⟩ = .ok (db', msg) ∧
        (∃ a1, findAppt db'.appointments 7 = some a1 ∧
          a1.status = .cancelled ∧
          ∃ c, a1.cancellation = some c ∧ c.cancelledAt = 599 ∧
            (c.isWithinPolicy = true
              ↔ (599 : Int) < sampleAppt.scheduledDate
                  - cancellationCutoffHours * 60)) ∧
        msg = (if (599 : Int) < sampleAppt.scheduledDate
                  - cancellationCutoffHours * 60
               then "Appointment cancelled successfully"
               else "Appointment cancelled. Note: less than 24 hours before the scheduled time.")) :=
  cancelAppointment_policy 2 .customer 7 none 599
    ⟨[sampleStaff], [sampleAppt]⟩ sampleAppt
    (by decide) (by decide) (by decide)

/-- C9 counterexample: `markNoShow` on an appointment that is already
`completed` (a terminal status) does NOT fail — it succeeds and overwrites
the status with `no_show`, refuting the claim that terminal statuses are
rejected. -/
theorem markNoShow_on_completed_succeeds :
    ((markNoShow 9 7 doneApptDb).toOption.map (fun d =>
        (findAppt d.appointments 7).map Appointment.status))
      = some (some .noShow) ∧
    (markNoShow 9 7 doneApptDb).toOption.isSome = true := by
  decide

/-- C9 (amended): `markNoShow` applies no status guard at all: for EVERY
existing appointment — terminal statuses included — it succeeds, sets the
status to `no_show` and appends exactly one statusHistory entry. -/
theorem markNoShow_from_any_status (userId apptId : Nat) (db : ApptDB)
    (appt : Appointment)
    (hnodup : (db.appointments.map Appointment.id).Nodup)
    (hfind : findAppt db.appointments apptId = some appt) :
    ∃ db', markNoShow userId apptId db = .ok db' ∧
      ∃ a1, findAppt db'.appointments apptId = some a1 ∧
        a1.status = .noShow ∧
        a1.statusHistory = appt.statusHistory
          ++ [⟨.noShow, userId, "Customer did not show up"⟩] := by
  have hun : (db.appointments.filter (fun r => !r.isDeleted)).find?
      (fun r => r.id == apptId) = some appt := by
    rw [← findAppt_eq]; exact hfind
  obtain ⟨hmem, hdel, hpred⟩ := find?_filter_spec _ _ _ _ hun
  have happtid : appt.id = apptId := by simpa using hpred
  have hok : markNoShow userId apptId db
      = .ok ⟨db.users, replaceAppt db.appointments { appt with
          status := .noShow
          statusHistory := appt.statusHistory
            ++ [⟨.noShow, userId, "Customer did not show up"⟩] }⟩ := by
    unfold markNoShow
    rw [hfind]
  exact ⟨_, hok, _, findAppt_replace db.appointments apptId appt _ hnodup
    hfind happtid hdel, rfl, rfl⟩

/-- Witness for the amended C9: the already-`completed` appointment of
`doneApptDb` is moved to `no_show` with one appended history entry. -/
theorem markNoShow_from_any_status_witness :
    ∃ db', markNoShow 9 7 doneApptDb = .ok db' ∧
      ∃ a1, findAppt db'.appointments 7 = some a1 ∧
        a1.status = .noShow ∧
        a1.statusHistory = ({ sampleAppt with
            status := .completed } : Appointment).statusHistory
          ++ [⟨.noShow, 9, "Customer did not show up"⟩] :=
  markNoShow_from_any_status 9 7 doneApptDb
    { sampleAppt with status := .completed } (by decide) (by decide)

/-- C10 counterexample: the receipt-numbering lookup runs through
`countDocuments`, which is not a `find`-family query and so is NOT given the
soft-delete filter: the soft-deleted receipted payment of
`softDeletedLedger` is counted, so verifying the live payment in February
2024 yields sequence number 2 where filtering the deleted record would
yield 1 — refuting the claim that every lookup excludes soft-deleted
records. -/
theorem soft_deleted_payment_counted :
    countYearReceipts softDeletedLedger.payments 2024 = 1 ∧
    (softDeletedLedger.payments.filter
        (fun p => !p.isDeleted)).countP
        (fun p => p.receipt.isSome && createdInYear 2024 p) = 0 ∧
    (softDeletedRun.map (fun st =>
        ((findPayment st.payments 1).bind Payment.receipt).map
          (fun r => r.number)))
      = some (some ⟨2024, 2, 2⟩) := by
  decide

/-- C10 (amended): every `find`-family lookup (`findById`, `findOne`, the
conflict `findOne`) excludes soft-deleted documents unless the query opts in
with `includeDeleted`, so the workflow operations treat a soft-deleted
aggregate exactly like a missing id — they fail with the not-found error and
mutate nothing; however `countDocuments`/`aggregate` lookups (receipt
numbering, dashboards) do NOT apply the filter, as the counterexample
shows. -/
theorem softDelete_find_filtering :
    (∀ (db : List Payment) (i : Nat) (p : Payment),
      findPayment db i = some p → p.isDeleted = false) ∧
    (∀ (db : List Project) (i : Nat) (p : Project),
      findProject db i = some p → p.isDeleted = false) ∧
    (∀ (db : List Appointment) (i : Nat) (a : Appointment),
      findAppt db i = some a → a.isDeleted = false) ∧
    (∀ (db : List Payment) (i : Nat) (p : Payment),
      (db.map Payment.id).Nodup → p ∈ db → p.id = i → p.isDeleted = true →
        findPayment db i = none) ∧
    (∀ (s : LedgerState) (i : Nat) (p : Payment) (u : Nat) (amt : Int)
        (r n : String) (now : DateTime),
      (s.payments.map Payment.id).Nodup → p ∈ s.payments → p.id = i →
      p.isDeleted = true →
        verifyPayment u i amt r n now s
          = .error (.notFound "Payment not found")) ∧
    (∀ (d : ApptDB) (i : Nat) (a : Appointment) (u : Nat),
      (d.appointments.map Appointment.id).Nodup → a ∈ d.appointments →
      a.id = i → a.isDeleted = true →
        markNoShow u i d = .error (.notFound "Appointment not found")) := by
  have hnone : ∀ (db : List Payment) (i : Nat) (p : Payment),
      (db.map Payment.id).Nodup → p ∈ db → p.id = i → p.isDeleted = true →
        findPayment db i = none := by
    intro db i p hnodup hmem hid hdelp
    rw [findPayment_eq]
    rw [List.find?_eq_none]
    intro x hx
    rw [List.mem_filter] at hx
    intro hxid
    have hxi : x.id = i := by simpa using hxid
    have hxp : x = p :=
      List.inj_on_of_nodup_map hnodup hx.1 hmem (by rw [hxi, hid])
    rw [hxp] at hx
    simp [hdelp] at hx
  have hnoneA : ∀ (db : List Appointment) (i : Nat) (a : Appointment),
      (db.map Appointment.id).Nodup → a ∈ db → a.id = i →
      a.isDeleted = true → findAppt db i = none := by
    intro db i a hnodup hmem hid hdela
    rw [findAppt_eq]
    rw [List.find?_eq_none]
    intro x hx
    rw [List.mem_filter] at hx
    intro hxid
    have hxi : x.id = i := by simpa using hxid
    have hxa : x = a :=
      List.inj_on_of_nodup_map hnodup hx.1 hmem (by rw [hxi, hid])
    rw [hxa] at hx
    simp [hdela] at hx
  refine ⟨?_, ?_, ?_, hnone, ?_, ?_⟩
  · intro db i p h
    exact (find?_filter_spec _ _ _ _ (by rw [← findPayment_eq]; exact h)).2.1
  · intro db i p h
    exact (find?_filter_spec _ _ _ _ (by rw [← findProject_eq]; exact h)).2.1
  · intro db i a h
    exact (find?_filter_spec _ _ _ _ (by rw [← findAppt_eq]; exact h)).2.1
  · intro s i p u amt r n now hnodup hmem hid hdelp
    unfold verifyPayment
    rw [hnone s.payments i p hnodup hmem hid hdelp]
  · intro d i a u hnodup hmem hid hdela
    unfold markNoShow
    rw [hnoneA d.appointments i a hnodup hmem hid hdela]

/-- Witness for the amended C10: the soft-deleted payment (id 3) of
`softDeletedLedger` is invisible to `findById`, and `verifyPayment` on it
fails with the not-found error. -/
theorem softDelete_find_filtering_witness :
    findPayment softDeletedLedger.payments 3 = none ∧
    verifyPayment 9 3 300 "r" "" ⟨2024, 1, 5, 10, 0⟩ softDeletedLedger
      = .error (.notFound "Payment not found") :=
  ⟨softDelete_find_filtering.2.2.2.1 softDeletedLedger.payments 3
      { samplePayment with
        id := 3
        stage := .final
        status := .verified
        isDeleted := true
        receipt := some ⟨⟨2024, 1, 1⟩, ⟨2024, 0, 2, 9, 0⟩⟩
        createdAt := ⟨2024, 0, 2, 9, 0⟩ }
      (by decide) (by decide) (by decide) (by decide),
   softDelete_find_filtering.2.2.2.2.1 softDeletedLedger 3
      { samplePayment with
        id := 3
        stage := .final
        status := .verified
        isDeleted := true
        receipt := some ⟨⟨2024, 1, 1⟩, ⟨2024, 0, 2, 9, 0⟩⟩
        createdAt := ⟨2024, 0, 2, 9, 0⟩ }
      9 300 "r" "" ⟨2024, 1, 5, 10, 0⟩
      (by decide) (by decide) (by decide) (by decide)⟩

end RMV
